import Mathlib

/-!
Shallow embedding of the training orchestrator in `predict.py`
(repository `chigozienri/lora-training-sdxl`).

The embedded code is `Predictor.predict` (predict.py lines 172-235) together
with `download_weights` (lines 66-71) and the module constants (lines 37-43).
The collaborators `preprocess` (preprocess.py), `trainer_pti.main`
(trainer_pti.py) and the `pget` downloader are repository or platform code
that is not part of the given source; where their behaviour is needed it is
modelled from the specification and marked `Modelled from the spec:`.

Python-level primitives (single-character `str.split`, `int(...)` parsing,
decimal formatting of integers in f-strings, `os.path.join`) are embedded
directly below; strings are Lean `String`s, machine integers are `Int`
(Python integers are unbounded, so no wrap-around modelling is needed), and
float-valued hyperparameters are carried opaquely (the orchestrator performs
no float arithmetic, it only passes the values through).
-/

/-- Float-valued hyperparameters. `predict` never computes with them, it only
forwards them, so any type with decidable equality represents them faithfully. -/
abbrev PyFloat := Rat

/-! ## Python string primitives -/

/-- Python `str.split(sep)` for a single-character separator, on the character list.
Matches CPython: the result is never empty, and empty chunks are kept
(`"".split(",") == [""]`, `"a:".split(":") == ["a", ""]`). -/
def splitChar (sep : Char) : List Char → List (List Char)
  | [] => [[]]
  | c :: cs =>
    let r := splitChar sep cs
    if c = sep then [] :: r
    else
      match r with
      | [] => [[c]]
      | h :: t => (c :: h) :: t

/-- Python `s.split(sep)` for a single-character separator. -/
def pySplit (sep : Char) (s : String) : List String :=
  (splitChar sep s.data).map String.mk

/-- ASCII decimal digit test. -/
def isAsciiDigit (c : Char) : Bool := 48 ≤ c.toNat && c.toNat ≤ 57

/-- ASCII whitespace stripped by Python `int(str)`. -/
def isPySpace (c : Char) : Bool :=
  c = ' ' || c = '\t' || c = '\n' || c = '\r' || c = '\x0b' || c = '\x0c'

/-- Strip whitespace from both ends of a character list. -/
def stripWs (l : List Char) : List Char :=
  ((l.dropWhile isPySpace).reverse.dropWhile isPySpace).reverse

/-- A non-empty digit sequence in which single underscores may separate
digits (CPython digit-grouping syntax: `"1_0"` is valid, `"_1"`, `"1_"`,
`"1__0"` are not). -/
def digitsUnd : List Char → Bool
  | [] => false
  | [c] => isAsciiDigit c
  | c :: '_' :: rest => isAsciiDigit c && digitsUnd rest
  | c :: rest => isAsciiDigit c && digitsUnd rest

/-- Numeric value of a digit sequence, ignoring the grouping underscores. -/
def digitsVal (l : List Char) : Nat :=
  (l.filter (fun c => c ≠ '_')).foldl (fun a c => a * 10 + (c.toNat - 48)) 0

/-- Python `int(str)` on ASCII input: optional surrounding whitespace, an
optional sign, then a digit sequence with optional grouping underscores.
`none` models the `ValueError` that `int` raises otherwise.  (CPython also
accepts non-ASCII Unicode digits and whitespace; those are outside the
scope of this development, which only applies the parser to ASCII data.) -/
def pyParseInt (s : String) : Option Int :=
  match stripWs s.data with
  | '+' :: rest => if digitsUnd rest then some (digitsVal rest : Int) else none
  | '-' :: rest => if digitsUnd rest then some (-(digitsVal rest : Int)) else none
  | l => if digitsUnd l then some (digitsVal l : Int) else none

/-- Python `os.path.join(a, b)` for the one shape used by `predict`
(`os.path.join(input_dir, "captions.csv")`, line 210). -/
def pyPathJoin (a b : String) : String :=
  if ['/'].isPrefixOf b.data then b
  else if a = "" then b
  else if ['/'].isSuffixOf a.data then a ++ b
  else a ++ "/" ++ b

/-! ## Decimal rendering of integers (Python `str`/f-string formatting) -/

/-- Decimal digit characters of `n`, most significant first.  The first
argument is structural fuel; `natDec` supplies enough for any `n`. -/
def natDecCore : Nat → Nat → List Char
  | 0, _ => []
  | fuel + 1, n =>
    if n < 10 then [Nat.digitChar n]
    else natDecCore fuel (n / 10) ++ [Nat.digitChar (n % 10)]

/-- Decimal rendering of a natural number, as Python `str` produces it. -/
def natDec (n : Nat) : String := ⟨natDecCore (n + 1) n⟩

/-- Decimal rendering of an integer, as Python `str`/f-strings produce it. -/
def intDec (i : Int) : String :=
  if i < 0 then "-" ++ natDec (-i).toNat else natDec i.toNat

/-- The placeholder token `f"<s{k}>"` built at predict.py lines 184 and 186. -/
def sTok (i : Int) : String := "<s" ++ intDec i ++ ">"

/-! ## Token map builder (predict.py lines 172-188) -/

/-- Python `dict` assignment `d[k] = v`: overwrite in place if the key is
present, otherwise append (insertion order is preserved). -/
def dictInsert (d : List (String × String)) (k v : String) : List (String × String) :=
  if d.any (fun kv => kv.1 == k) then
    d.map (fun kv => if kv.1 == k then (k, v) else kv)
  else d ++ [(k, v)]

/-- Errors that the embedded `predict` can raise. -/
inductive PredictError where
  /-- The `ValueError` from `int(...)` at line 181; carries the offending text. -/
  | valueError (s : String)
  /-- The `IndexError` from `token.split(":")[1]` at line 181. -/
  | indexError
  /-- The `NotADirectoryError` from `shutil.rmtree` at line 205 when the output
  path exists but is a file. -/
  | notADirectory (p : String)
  /-- Modelled from the spec: rejection of a value outside a declared
  `choices` list, performed by the cog framework before the body runs. -/
  | choiceValidation
deriving Repr, DecidableEq

/-- The `for token in inserting_list_tokens` loop of predict.py lines
180-188, threading `token_dict`, `running_tok_cnt` and `all_token_lists`. -/
def tokenLoop : List String → List (String × String) → Int → List String →
    Except PredictError (List (String × String) × List String)
  | [], token_dict, _, all_token_lists => .ok (token_dict, all_token_lists)
  | token :: rest, token_dict, running_tok_cnt, all_token_lists =>
    let parts := pySplit ':' token
    match parts.get? 1 with
    | none => .error .indexError
    | some countStr =>
      match pyParseInt countStr with
      | none => .error (.valueError countStr)
      | some n_tok =>
        let toks := (List.range n_tok.toNat).map (fun i : Nat => sTok ((i : Int) + running_tok_cnt))
        tokenLoop rest
          (dictInsert token_dict (parts.headD "") (String.join toks))
          (running_tok_cnt + n_tok)
          (all_token_lists ++ toks)

/-- Token Map Builder: predict.py lines 172-188.  `token_map` is the
hard-coded `token_string + ":2"`, split on `","`, and each entry is split
on `":"` into a key and a token count. -/
def buildTokenMap (token_string : String) :
    Except PredictError (List (String × String) × List String) :=
  let token_map := token_string ++ ":2"
  let inserting_list_tokens := pySplit ',' token_map
  tokenLoop inserting_list_tokens [] 0 []

/-- Decidable check that one token-map entry has a nonnegative count (or no
parseable count at all, in which case the loop errors out anyway). -/
def entryCountNonneg (e : String) : Bool :=
  match (pySplit ':' e).get? 1 with
  | none => true
  | some countStr =>
    match pyParseInt countStr with
    | none => true
    | some k => 0 ≤ k

/-! ## Filesystem model -/

/-- A filesystem snapshot: the set of existing directory paths and of
existing file paths with their sizes, as lists. -/
structure FileSys where
  dirs : List String
  files : List (String × Nat)
deriving Repr, DecidableEq

/-- Python `os.path.exists` (predict.py lines 202 and 204). -/
def FileSys.pathExists (fs : FileSys) (p : String) : Bool :=
  fs.dirs.any (fun d => d == p) || fs.files.any (fun e => e.1 == p)

/-- Whether `p` lies strictly inside directory `d` (its path extends `d ++ "/"`). -/
def isUnder (d p : String) : Bool := (d.data ++ ['/']).isPrefixOf p.data

/-- Python `shutil.rmtree d` (predict.py line 205): remove `d` and everything under
it.  `resetOutputDir` below only applies it when `d` is a directory. -/
def FileSys.rmtree (fs : FileSys) (d : String) : FileSys :=
  ⟨fs.dirs.filter (fun p => !(p == d || isUnder d p)),
   fs.files.filter (fun e => !(e.1 == d || isUnder d e.1))⟩

/-- Python `os.makedirs d` (predict.py line 206). -/
def FileSys.makedirs (fs : FileSys) (d : String) : FileSys :=
  ⟨d :: fs.dirs, fs.files⟩

/-- Create files (prepending, so later writes shadow stale duplicates). -/
def FileSys.addFiles (fs : FileSys) (l : List (String × Nat)) : FileSys :=
  ⟨fs.dirs, l ++ fs.files⟩

/-- Size of the file at `p`, or `none` if no file exists there. -/
def sizeAt (fs : FileSys) (p : String) : Option Nat :=
  (fs.files.find? (fun e => e.1 == p)).map Prod.snd

/-! ## Inputs, collaborator oracles, events -/

/-- Module constant, predict.py line 37. -/
def OUTPUT_DIR : String := "training_out"

/-- Module constant, predict.py line 39. -/
def SDXL_MODEL_CACHE : String := "./sdxl-cache"

/-- Module constant, predict.py line 43. -/
def SDXL_URL : String :=
  "https://weights.replicate.delivery/default/sdxl/sdxl-vae-upcast-fix.tar"

/-- The caller-supplied parameters of `Predictor.predict` (predict.py lines
75-169), with the declared defaults. -/
structure PredictInputs where
  input_images : String
  seed : Option Int := none
  resolution : Int := 768
  train_batch_size : Int := 4
  num_train_epochs : Int := 4000
  max_train_steps : Int := 1000
  unet_learning_rate : PyFloat := ⟨1, 1000000, by norm_num, by norm_num⟩
  ti_lr : PyFloat := ⟨3, 10000, by norm_num, by norm_num⟩
  lora_lr : PyFloat := ⟨1, 10000, by norm_num, by norm_num⟩
  lora_rank : Int := 32
  lr_scheduler : String := "constant"
  lr_warmup_steps : Int := 100
  token_string : String := "TOK"
  caption_prefix : String := "a photo of TOK, "
  mask_target_prompts : Option String := none
  crop_based_on_salience : Bool := true
  use_face_detection_instead : Bool := false
  clipseg_temperature : PyFloat := 1
  verbose : Bool := true
  checkpointing_steps : Int := 999999
  input_images_filetype : String := "infer"
deriving Repr, DecidableEq

/-- The arguments of the `preprocess(...)` call at predict.py lines 190-200,
in call order. -/
structure PreprocessArgs where
  input_images_filetype : String
  input_zip_path : String
  caption_text : String
  mask_target_prompts : Option String
  target_size : Int
  crop_based_on_salience : Bool
  use_face_detection_instead : Bool
  temp : PyFloat
  substitution_tokens : List String
deriving Repr, DecidableEq

/-- The arguments of the `main(...)` call at predict.py lines 208-234, in
call order. -/
structure TrainArgs where
  pretrained_model_name_or_path : String
  instance_data_dir : String
  output_dir : String
  seed : Option Int
  resolution : Int
  train_batch_size : Int
  num_train_epochs : Int
  max_train_steps : Int
  gradient_accumulation_steps : Int
  unet_learning_rate : PyFloat
  ti_lr : PyFloat
  lora_lr : PyFloat
  lr_scheduler : String
  lr_warmup_steps : Int
  token_dict : List (String × String)
  inserting_list_tokens : List String
  verbose : Bool
  checkpointing_steps : Int
  scale_lr : Bool
  max_grad_norm : PyFloat
  allow_tf32 : Bool
  mixed_precision : String
  device : String
  lora_rank : Int
  is_lora : Bool
deriving Repr, DecidableEq

/-- One observable side-effecting step of an invocation. -/
inductive Event where
  | preprocessCall (args : PreprocessArgs)
  | downloadCall (url dest : String)
  | rmtreeCall (dir : String)
  | makedirsCall (dir : String)
  | trainCall (args : TrainArgs)
deriving Repr, DecidableEq

/-- The constructor of an event, forgetting its arguments. -/
inductive EventKind where
  | preprocessK | downloadK | rmtreeK | makedirsK | trainK
deriving Repr, DecidableEq

/-- Project an event to its kind. -/
def Event.kind : Event → EventKind
  | .preprocessCall _ => .preprocessK
  | .downloadCall _ _ => .downloadK
  | .rmtreeCall _ => .rmtreeK
  | .makedirsCall _ => .makedirsK
  | .trainCall _ => .trainK

/-- Behaviour of the external collaborators, abstracted as oracles.

`preprocessDir`/`preprocessFS` give the directory returned by `preprocess`
and its (arbitrary) effect on the filesystem.

Modelled from the spec: `downloadFiles url` is the content of the remote
archive at `url`; `pget -x url dest` extracts it under `dest` ("fetch the
archive and extract it to that path").  `trainWrites args` is the set of
files, with sizes, that `trainer_pti.main` writes into its `output_dir`
("writes checkpoint and final artifact files", "writes artifact to
outputDir"); `preprocess.py` and `trainer_pti.py` are not part of the given
source. -/
structure Collab where
  preprocessDir : PreprocessArgs → String
  preprocessFS : PreprocessArgs → FileSys → FileSys
  downloadFiles : String → List (String × Nat)
  trainWrites : TrainArgs → List (String × Nat)

deriving instance DecidableEq for Except

/-- The outcome of one invocation: the returned path or raised error, the
ordered trace of side-effecting steps performed, and the final filesystem. -/
structure PredictResult where
  result : Except PredictError String
  trace : List Event
  fs : FileSys
deriving Repr, DecidableEq

/-! ## The orchestrator (predict.py lines 172-235) -/

/-- Modelled from the spec: the cog framework rejects a value outside the
`choices` list declared on an `Input` before the predict body runs
("Supplying an unsupported scheduler name or filetype choice outside the
enumerated set is rejected before any I/O occurs").  Only `lr_scheduler`
(lines 120-127) and `input_images_filetype` (lines 165-169) declare
choices. -/
def validChoices (inp : PredictInputs) : Bool :=
  (inp.lr_scheduler == "constant" || inp.lr_scheduler == "linear") &&
  (inp.input_images_filetype == "zip" || inp.input_images_filetype == "tar" ||
    inp.input_images_filetype == "infer")

/-- The function `download_weights` (predict.py lines 66-71): run `pget -x url dest`,
which creates `dest` and extracts the archive contents under it. -/
def applyDownload (c : Collab) (url dest : String) (fs : FileSys) : FileSys :=
  (fs.makedirs dest).addFiles
    ((c.downloadFiles url).map (fun e => (dest ++ "/" ++ e.1, e.2)))

/-- The `main(...)` call (predict.py lines 208-234): the Training Routine
writes its files into `output_dir`. -/
def applyTrain (c : Collab) (t : TrainArgs) (fs : FileSys) : FileSys :=
  fs.addFiles ((c.trainWrites t).map (fun e => (t.output_dir ++ "/" ++ e.1, e.2)))

/-- The arguments passed to `preprocess` at predict.py lines 190-200. -/
def mkPreprocessArgs (inp : PredictInputs) (token_dict : List (String × String)) :
    PreprocessArgs :=
  { input_images_filetype := inp.input_images_filetype
    input_zip_path := inp.input_images
    caption_text := inp.caption_prefix
    mask_target_prompts := inp.mask_target_prompts
    target_size := inp.resolution
    crop_based_on_salience := inp.crop_based_on_salience
    use_face_detection_instead := inp.use_face_detection_instead
    temp := inp.clipseg_temperature
    substitution_tokens := token_dict.map Prod.fst }

/-- The arguments passed to `main` at predict.py lines 208-234. -/
def mkTrainArgs (inp : PredictInputs) (input_dir : String)
    (token_dict : List (String × String)) (all_token_lists : List String) :
    TrainArgs :=
  { pretrained_model_name_or_path := SDXL_MODEL_CACHE
    instance_data_dir := pyPathJoin input_dir "captions.csv"
    output_dir := OUTPUT_DIR
    seed := inp.seed
    resolution := inp.resolution
    train_batch_size := inp.train_batch_size
    num_train_epochs := inp.num_train_epochs
    max_train_steps := inp.max_train_steps
    gradient_accumulation_steps := 1
    unet_learning_rate := inp.unet_learning_rate
    ti_lr := inp.ti_lr
    lora_lr := inp.lora_lr
    lr_scheduler := inp.lr_scheduler
    lr_warmup_steps := inp.lr_warmup_steps
    token_dict := token_dict
    inserting_list_tokens := all_token_lists
    verbose := inp.verbose
    checkpointing_steps := inp.checkpointing_steps
    scale_lr := false
    max_grad_norm := 1
    allow_tf32 := true
    mixed_precision := "bf16"
    device := "cuda:0"
    lora_rank := inp.lora_rank
    is_lora := true }

/-- Weights Cache Resolver (predict.py lines 202-203): download only when
`SDXL_MODEL_CACHE` does not exist.  Returns the new state and the events. -/
def cacheStep (c : Collab) (fs : FileSys) : FileSys × List Event :=
  if fs.pathExists SDXL_MODEL_CACHE then (fs, [])
  else (applyDownload c SDXL_URL SDXL_MODEL_CACHE fs,
        [Event.downloadCall SDXL_URL SDXL_MODEL_CACHE])

/-- Output directory reset (predict.py lines 204-206): `rmtree` when the
path exists (raising `NotADirectoryError` if it is a file), then
`makedirs`. -/
def resetOutputDir (fs : FileSys) : Except PredictError (FileSys × List Event) :=
  if fs.pathExists OUTPUT_DIR then
    if fs.dirs.any (fun d => d == OUTPUT_DIR) then
      .ok ((fs.rmtree OUTPUT_DIR).makedirs OUTPUT_DIR,
           [Event.rmtreeCall OUTPUT_DIR, Event.makedirsCall OUTPUT_DIR])
    else .error (.notADirectory OUTPUT_DIR)
  else .ok (fs.makedirs OUTPUT_DIR, [Event.makedirsCall OUTPUT_DIR])

/-- The `preprocess` call arguments of a run that built `token_dict`. -/
def pargsOf (inp : PredictInputs) (token_dict : List (String × String)) :
    PreprocessArgs :=
  mkPreprocessArgs inp token_dict

/-- Filesystem after the `preprocess` call (predict.py lines 190-200). -/
def fs1Of (c : Collab) (inp : PredictInputs) (fs0 : FileSys)
    (token_dict : List (String × String)) : FileSys :=
  c.preprocessFS (pargsOf inp token_dict) fs0

/-- State and events of the weights-cache step (predict.py lines 202-203). -/
def s2Of (c : Collab) (inp : PredictInputs) (fs0 : FileSys)
    (token_dict : List (String × String)) : FileSys × List Event :=
  cacheStep c (fs1Of c inp fs0 token_dict)

/-- The `main` call arguments of a run that built `token_dict` and
`all_token_lists`. -/
def targsOf (c : Collab) (inp : PredictInputs)
    (token_dict : List (String × String)) (all_token_lists : List String) :
    TrainArgs :=
  mkTrainArgs inp (c.preprocessDir (pargsOf inp token_dict)) token_dict all_token_lists

/-- The pipeline after a successful token-map build: preprocess (lines
190-200), weights cache (202-203), output-directory reset (204-206),
training (208-234), return of the fixed artifact path (235). -/
def afterTokenMap (c : Collab) (inp : PredictInputs) (fs0 : FileSys)
    (token_dict : List (String × String)) (all_token_lists : List String) :
    PredictResult :=
  match resetOutputDir (s2Of c inp fs0 token_dict).1 with
  | .error e =>
    { result := .error e
      trace := [Event.preprocessCall (pargsOf inp token_dict)] ++ (s2Of c inp fs0 token_dict).2
      fs := (s2Of c inp fs0 token_dict).1 }
  | .ok st =>
    { result := .ok (OUTPUT_DIR ++ "/lora.safetensors")
      trace := [Event.preprocessCall (pargsOf inp token_dict)] ++ (s2Of c inp fs0 token_dict).2
                 ++ st.2 ++ [Event.trainCall (targsOf c inp token_dict all_token_lists)]
      fs := applyTrain c (targsOf c inp token_dict all_token_lists) st.1 }

/-- The method `Predictor.predict` (predict.py lines 172-235), parameterised by the
collaborator oracles and an initial filesystem. -/
def predict (c : Collab) (inp : PredictInputs) (fs0 : FileSys) : PredictResult :=
  if validChoices inp = false then
    { result := .error .choiceValidation, trace := [], fs := fs0 }
  else
    match buildTokenMap inp.token_string with
    | .error e => { result := .error e, trace := [], fs := fs0 }
    | .ok (token_dict, all_token_lists) =>
      afterTokenMap c inp fs0 token_dict all_token_lists

/-- Well-formedness of the filesystem relative to the output directory: a
file strictly under `training_out` can only exist if `training_out` itself
exists (true of any real filesystem state). -/
def outFileConsistent (fs : FileSys) : Prop :=
  ∀ e ∈ fs.files, isUnder OUTPUT_DIR e.1 = true → fs.pathExists OUTPUT_DIR = true

instance outFileConsistentDecidable (fs : FileSys) : Decidable (outFileConsistent fs) :=
  inferInstanceAs (Decidable (∀ e ∈ fs.files,
    isUnder OUTPUT_DIR e.1 = true → fs.pathExists OUTPUT_DIR = true))

/-! ## Concrete fixtures for the closed test runs -/

/-- A concrete collaborator instantiation: identity preprocessing effect, a
one-file archive, a Training Routine that writes a non-empty artifact. -/
def collabT : Collab :=
  { preprocessDir := fun _ => "/tmp/dataset"
    preprocessFS := fun _ fs => fs
    downloadFiles := fun _ => [("weights.bin", 7)]
    trainWrites := fun _ => [("lora.safetensors", 9)] }

/-- An initial filesystem on which the weights cache already exists. -/
def fsCacheOnly : FileSys := ⟨["./sdxl-cache"], []⟩

/-- Default inputs with an empty `token_string`. -/
def inpEmptyTok : PredictInputs := { input_images := "images.zip", token_string := "" }

/-- Default inputs with a colon-containing `token_string` whose count field
is not an integer. -/
def inpColonBad : PredictInputs := { input_images := "images.zip", token_string := "A:B" }

/-- Default inputs with the default `token_string = "TOK"`. -/
def inpDefault : PredictInputs := { input_images := "images.zip" }

/-- The Training Routine arguments of the concrete default run. -/
def targsT : TrainArgs :=
  targsOf collabT inpDefault [("TOK", "<s0><s1>")] ["<s0>", "<s1>"]


/-- An initial filesystem holding a stale file inside `training_out`. -/
def fsStale : FileSys :=
  ⟨["./sdxl-cache", "training_out"], [("training_out/stale.bin", 3)]⟩

/-! ## Lemmas about the split primitive -/

lemma splitChar_ne_nil (sep : Char) (l : List Char) : splitChar sep l ≠ [] := by
  cases l with
  | nil => simp [splitChar]
  | cons c cs =>
    simp only [splitChar]
    by_cases hc : c = sep
    · simp [hc]
    · simp only [hc, if_false]
      cases splitChar sep cs <;> simp

lemma splitChar_cons_of_ne {sep c : Char} {cs h : List Char} {t : List (List Char)}
    (hne : ¬ c = sep) (hs : splitChar sep cs = h :: t) :
    splitChar sep (c :: cs) = (c :: h) :: t := by
  simp only [splitChar, hne, if_false, hs]

lemma splitChar_no_sep {sep : Char} {l : List Char} (h : sep ∉ l) :
    splitChar sep l = [l] := by
  induction l with
  | nil => rfl
  | cons c cs ih =>
    have hc : ¬ c = sep := by
      intro e; exact h (e ▸ List.mem_cons_self c cs)
    have hcs : sep ∉ cs := fun m => h (List.mem_cons_of_mem _ m)
    rw [splitChar_cons_of_ne hc (ih hcs)]

lemma splitChar_append_sep (sep : Char) (l1 l2 : List Char) :
    splitChar sep (l1 ++ sep :: l2) = splitChar sep l1 ++ splitChar sep l2 := by
  induction l1 with
  | nil => simp [splitChar]
  | cons c l1 ih =>
    rw [List.cons_append]
    by_cases hc : c = sep
    · subst hc
      show splitChar c (c :: (l1 ++ c :: l2)) = splitChar c (c :: l1) ++ splitChar c l2
      simp [splitChar, ih]
    · obtain ⟨h, t, hs⟩ : ∃ h t, splitChar sep l1 = h :: t := by
        cases hsp : splitChar sep l1 with
        | nil => exact absurd hsp (splitChar_ne_nil sep l1)
        | cons h t => exact ⟨h, t, rfl⟩
      have hs2 : splitChar sep (l1 ++ sep :: l2) = h :: (t ++ splitChar sep l2) := by
        rw [ih, hs]; rfl
      rw [splitChar_cons_of_ne hc hs2, splitChar_cons_of_ne hc hs]
      rfl

lemma pySplit_no_sep {sep : Char} {s : String} (h : sep ∉ s.data) :
    pySplit sep s = [s] := by
  unfold pySplit
  rw [splitChar_no_sep h]
  rfl

/-- Splitting `S ++ ":2"` on a separator absent from `":2"`s tail context:
the comma split of the hard-coded token map. -/
lemma pySplit_comma_token_map {S : String} (h : ',' ∉ S.data) :
    pySplit ',' (S ++ ":2") = [S ++ ":2"] := by
  apply pySplit_no_sep
  rw [String.data_append]
  intro hm
  rcases List.mem_append.mp hm with h1 | h2
  · exact h h1
  · simp at h2

/-- The colon split of one token-map entry `S ++ ":2"`. -/
lemma pySplit_colon_entry (S : String) :
    pySplit ':' (S ++ ":2") = pySplit ':' S ++ ["2"] := by
  unfold pySplit
  have hdata : (S ++ ":2").data = S.data ++ ':' :: ['2'] := by
    rw [String.data_append]
  rw [hdata, splitChar_append_sep]
  rw [List.map_append]
  rfl

/-! ## Decimal rendering: value recovery and injectivity -/

lemma digitChar_toNat {n : Nat} (h : n < 10) : (Nat.digitChar n).toNat = 48 + n := by
  interval_cases n <;> rfl

lemma foldl_natDecCore (fuel : Nat) : ∀ n a, n < fuel →
    (natDecCore fuel n).foldl (fun acc c => acc * 10 + (c.toNat - 48)) a
      = a * 10 ^ (natDecCore fuel n).length + n := by
  induction fuel with
  | zero => intro n a h; omega
  | succ fuel ih =>
    intro n a h
    by_cases h10 : n < 10
    · simp only [natDecCore, if_pos h10, List.foldl_cons, List.foldl_nil,
        List.length_cons, List.length_nil, Nat.zero_add, pow_one,
        digitChar_toNat h10]
      omega
    · have hpos : 0 < n := by omega
      have hdiv : n / 10 < n := Nat.div_lt_self hpos (by norm_num)
      have hd : n / 10 < fuel := by omega
      have hmod : (Nat.digitChar (n % 10)).toNat = 48 + n % 10 :=
        digitChar_toNat (Nat.mod_lt _ (by norm_num))
      simp only [natDecCore, if_neg h10, List.foldl_append, List.length_append,
        List.foldl_cons, List.foldl_nil, List.length_cons, List.length_nil,
        Nat.zero_add]
      rw [ih (n / 10) a hd, hmod]
      rw [show 48 + n % 10 - 48 = n % 10 from by omega]
      calc (a * 10 ^ (natDecCore fuel (n / 10)).length + n / 10) * 10 + n % 10
          = a * (10 ^ (natDecCore fuel (n / 10)).length * 10)
              + (10 * (n / 10) + n % 10) := by ring
        _ = a * 10 ^ ((natDecCore fuel (n / 10)).length + 1) + n := by
              rw [Nat.div_add_mod n 10, pow_succ]

lemma natDec_inj (m n : Nat) (h : natDec m = natDec n) : m = n := by
  have hd : natDecCore (m + 1) m = natDecCore (n + 1) n := congrArg String.data h
  have h1 := foldl_natDecCore (m + 1) m 0 (Nat.lt_succ_self m)
  have h2 := foldl_natDecCore (n + 1) n 0 (Nat.lt_succ_self n)
  rw [hd] at h1
  rw [h1] at h2
  omega

lemma intDec_natCast (m : Nat) : intDec (m : Int) = natDec m := by
  simp [intDec]

lemma sTok_nat_inj (m n : Nat) (h : sTok (m : Int) = sTok (n : Int)) : m = n := by
  apply natDec_inj
  apply String.ext
  unfold sTok at h
  rw [intDec_natCast, intDec_natCast] at h
  have hd := congrArg String.data h
  simp only [String.data_append] at hd
  rw [List.append_assoc, List.append_assoc] at hd
  exact List.append_cancel_right (List.append_cancel_left hd)

/-! ## Token-loop unfolding -/

lemma tokenLoop_cons {token : String} (rest : List String)
    (d : List (String × String)) (run : Int) (all : List String)
    {p0 p1 : String} {ps : List String}
    (hsp : pySplit ':' token = p0 :: p1 :: ps) :
    tokenLoop (token :: rest) d run all =
      match pyParseInt p1 with
      | none => .error (.valueError p1)
      | some n_tok =>
        tokenLoop rest
          (dictInsert d p0
            (String.join ((List.range n_tok.toNat).map (fun i : Nat => sTok ((i : Int) + run)))))
          (run + n_tok)
          (all ++ (List.range n_tok.toNat).map (fun i : Nat => sTok ((i : Int) + run))) := by
  simp only [tokenLoop, hsp, List.get?, List.headD]

/-- The single-entry run of the token loop used when `token_string` has no
comma: full characterisation in terms of the parsed count. -/
lemma buildTokenMap_no_comma {S p0 p1 : String} {ps : List String}
    (hm : ',' ∉ S.data) (hsp : pySplit ':' (S ++ ":2") = p0 :: p1 :: ps) :
    buildTokenMap S =
      match pyParseInt p1 with
      | none => .error (.valueError p1)
      | some n_tok =>
        .ok ([(p0, String.join ((List.range n_tok.toNat).map (fun i : Nat => sTok (i : Int))))],
             (List.range n_tok.toNat).map (fun i : Nat => sTok (i : Int))) := by
  show tokenLoop (pySplit ',' (S ++ ":2")) [] 0 [] = _
  rw [pySplit_comma_token_map hm]
  rw [tokenLoop_cons [] [] 0 [] hsp]
  cases hp : pyParseInt p1 with
  | none => rfl
  | some n_tok =>
    simp only []
    have htoks : (List.range n_tok.toNat).map (fun i : Nat => sTok ((i : Int) + 0))
        = (List.range n_tok.toNat).map (fun i : Nat => sTok (i : Int)) := by
      apply List.map_congr_left
      intro a _
      rw [Int.add_zero]
    rw [htoks]
    simp only [tokenLoop, dictInsert, List.any_nil, List.nil_append,
      Bool.false_eq_true, if_false]

/-! ## Claim C1: the Token Map Builder on a plain trigger string -/

/-- C1: for every non-empty trigger string `S` containing neither `':'` nor
`','`, the Token Map Builder step of `predict` produces exactly the token
dictionary `{S: "<s0><s1>"}` (key equal to `S` character for character) and
exactly the ordered token list `["<s0>", "<s1>"]` — 2 unique placeholder
tokens indexed contiguously from 0. -/
theorem claim1_token_map_builder (S : String) (_hne : S ≠ "")
    (hc : ':' ∉ S.data) (hm : ',' ∉ S.data) :
    buildTokenMap S = .ok ([(S, "<s0><s1>")], ["<s0>", "<s1>"]) := by
  have hsp : pySplit ':' (S ++ ":2") = S :: "2" :: [] := by
    rw [pySplit_colon_entry, pySplit_no_sep hc]
    rfl
  rw [buildTokenMap_no_comma hm hsp]
  have hp : pyParseInt "2" = some 2 := by decide
  rw [hp]
  have htoks : (List.range (2 : Int).toNat).map (fun i : Nat => sTok (i : Int))
      = ["<s0>", "<s1>"] := by decide
  simp only [htoks]
  have hj : String.join ["<s0>", "<s1>"] = "<s0><s1>" := by decide
  rw [hj]

/-- Witness for C1 at the default trigger word `"TOK"`. -/
theorem claim1_token_map_builder_witness :
    ("TOK" : String) ≠ "" ∧ ':' ∉ "TOK".data ∧ ',' ∉ "TOK".data ∧
    buildTokenMap "TOK" = .ok ([("TOK", "<s0><s1>")], ["<s0>", "<s1>"]) :=
  ⟨by decide, by decide, by decide,
   claim1_token_map_builder "TOK" (by decide) (by decide) (by decide)⟩

/-! ## Claim C8: global uniqueness and contiguity of placeholder tokens -/

lemma tokenLoop_canonical (es : List String) :
    ∀ (d d' : List (String × String)) (m : Nat) (all' : List String),
      (∀ e ∈ es, entryCountNonneg e = true) →
      tokenLoop es d (m : Int) ((List.range m).map (fun i : Nat => sTok (i : Int)))
        = .ok (d', all') →
      all' = (List.range all'.length).map (fun i : Nat => sTok (i : Int)) := by
  induction es with
  | nil =>
    intro d d' m all' _ hok
    simp only [tokenLoop, Except.ok.injEq, Prod.mk.injEq] at hok
    rw [← hok.2, List.length_map, List.length_range]
  | cons e es ih =>
    intro d d' m all' hnn hok
    rcases hq : (pySplit ':' e).get? 1 with _ | countStr
    · simp only [tokenLoop, hq] at hok
      exact Except.noConfusion hok
    · rcases hp : pyParseInt countStr with _ | k
      · simp only [tokenLoop, hq, hp] at hok
        exact Except.noConfusion hok
      · have hk : 0 ≤ k := by
          have hcn := hnn e (List.mem_cons_self e es)
          simp only [entryCountNonneg, hq, hp] at hcn
          exact of_decide_eq_true hcn
        simp only [tokenLoop, hq, hp] at hok
        have hacc : (List.range m).map (fun i : Nat => sTok (i : Int))
              ++ (List.range k.toNat).map (fun i : Nat => sTok ((i : Int) + (m : Int)))
            = (List.range (m + k.toNat)).map (fun i : Nat => sTok (i : Int)) := by
          rw [List.range_add, List.map_append, List.map_map]
          congr 1
          apply List.map_congr_left
          intro a _
          show sTok ((a : Int) + (m : Int)) = sTok ((m + a : Nat) : Int)
          congr 1
          push_cast
          ring
        have hrun : (m : Int) + k = ((m + k.toNat : Nat) : Int) := by
          push_cast [Int.toNat_of_nonneg hk]
          ring
        rw [hacc, hrun] at hok
        exact ih _ _ _ _ (fun x hx => hnn x (List.mem_cons_of_mem _ hx)) hok

/-- C8 counterexample: the claim fails as stated.  The reachable token-map
input `"A:2,B:-2,C"` (a `token_string` containing `','` and a negative
count) makes `running_tok_cnt` go `2 → 0`, so entry `"C:2"` reuses indices
0 and 1 and the emitted placeholder tokens are not globally unique. -/
theorem claim8_counterexample :
    buildTokenMap "A:2,B:-2,C" =
      .ok ([("A", "<s0><s1>"), ("B", ""), ("C", "<s0><s1>")],
           ["<s0>", "<s1>", "<s0>", "<s1>"]) ∧
    ¬ (["<s0>", "<s1>", "<s0>", "<s1>"] : List String).Nodup := by
  exact ⟨by decide, by decide⟩

/-- C8 amended: for every token-map input the builder loop processes in
which each entry's parsed count is nonnegative, the generated placeholder
tokens are globally unique and monotonically indexed starting at 0 with no
index reused across entries — the full token list is exactly
`["<s0>", "<s1>", ...]` up to its length, each entry continuing exactly
where the previous one ended. -/
theorem claim8_unique_tokens (S : String) (d : List (String × String))
    (all : List String)
    (hok : buildTokenMap S = .ok (d, all))
    (hnn : ∀ e ∈ pySplit ',' (S ++ ":2"), entryCountNonneg e = true) :
    all = (List.range all.length).map (fun i : Nat => sTok (i : Int)) ∧ all.Nodup := by
  have h0 : tokenLoop (pySplit ',' (S ++ ":2")) [] ((0 : Nat) : Int)
      ((List.range 0).map (fun i : Nat => sTok (i : Int))) = .ok (d, all) := hok
  have hcan := tokenLoop_canonical _ _ _ _ _ hnn h0
  refine ⟨hcan, ?_⟩
  rw [hcan]
  exact List.Nodup.map (fun a b hab => sTok_nat_inj a b hab) (List.nodup_range _)

/-- Witness for the amended C8 on a genuine multi-entry input. -/
theorem claim8_unique_tokens_witness :
    buildTokenMap "A:1,B:2"
      = .ok ([("A", "<s0>"), ("B", "<s1><s2>")], ["<s0>", "<s1>", "<s2>"]) ∧
    (∀ e ∈ pySplit ',' ("A:1,B:2" ++ ":2"), entryCountNonneg e = true) ∧
    (["<s0>", "<s1>", "<s2>"] : List String) =
      (List.range (["<s0>", "<s1>", "<s2>"] : List String).length).map
        (fun i : Nat => sTok (i : Int)) ∧
    (["<s0>", "<s1>", "<s2>"] : List String).Nodup := by
  have h := claim8_unique_tokens "A:1,B:2" [("A", "<s0>"), ("B", "<s1><s2>")]
      ["<s0>", "<s1>", "<s2>"] (by decide) (by decide)
  exact ⟨by decide, by decide, h.1, h.2⟩

/-! ## Branch lemmas for the orchestrator -/

lemma predict_invalid {c : Collab} {inp : PredictInputs} {fs0 : FileSys}
    (hv : validChoices inp = false) :
    predict c inp fs0 = ⟨.error .choiceValidation, [], fs0⟩ := by
  simp [predict, hv]

lemma predict_build_error {c : Collab} {inp : PredictInputs} {fs0 : FileSys}
    {e : PredictError} (hv : validChoices inp = true)
    (hb : buildTokenMap inp.token_string = .error e) :
    predict c inp fs0 = ⟨.error e, [], fs0⟩ := by
  simp [predict, hv, hb]

lemma predict_build_ok {c : Collab} {inp : PredictInputs} {fs0 : FileSys}
    {d : List (String × String)} {all : List String}
    (hv : validChoices inp = true)
    (hb : buildTokenMap inp.token_string = .ok (d, all)) :
    predict c inp fs0 = afterTokenMap c inp fs0 d all := by
  simp [predict, hv, hb]

lemma cacheStep_hit {c : Collab} {fs : FileSys}
    (h : fs.pathExists SDXL_MODEL_CACHE = true) :
    cacheStep c fs = (fs, []) := by
  simp [cacheStep, h]

lemma cacheStep_miss {c : Collab} {fs : FileSys}
    (h : fs.pathExists SDXL_MODEL_CACHE = false) :
    cacheStep c fs = (applyDownload c SDXL_URL SDXL_MODEL_CACHE fs,
      [Event.downloadCall SDXL_URL SDXL_MODEL_CACHE]) := by
  simp [cacheStep, h]

lemma resetOutputDir_shape {fs fs' : FileSys} {tr : List Event}
    (h : resetOutputDir fs = .ok (fs', tr)) :
    (fs.pathExists OUTPUT_DIR = true ∧
      fs' = (fs.rmtree OUTPUT_DIR).makedirs OUTPUT_DIR ∧
      tr = [Event.rmtreeCall OUTPUT_DIR, Event.makedirsCall OUTPUT_DIR]) ∨
    (fs.pathExists OUTPUT_DIR = false ∧
      fs' = fs.makedirs OUTPUT_DIR ∧ tr = [Event.makedirsCall OUTPUT_DIR]) := by
  unfold resetOutputDir at h
  split at h
  next hex =>
    split at h
    next =>
      simp only [Except.ok.injEq, Prod.mk.injEq] at h
      exact Or.inl ⟨hex, h.1.symm, h.2.symm⟩
    next => exact Except.noConfusion h
  next hex =>
    simp only [Except.ok.injEq, Prod.mk.injEq] at h
    exact Or.inr ⟨Bool.not_eq_true _ ▸ hex, h.1.symm, h.2.symm⟩

/-! ## Claim C10: the colon path of the token-map parser -/

/-- C10 counterexample: the claim is false as stated, at two concrete
inputs.  For `token_string = "x,y:3"` the text between the first and second
colon of `token_string + ":2"` is `"3"`, which parses as 3, yet the builder
raises `IndexError` (the comma split makes `"x"` an entry with no colon)
instead of emitting 3 tokens.  For `token_string = "A:-1"` the text `"-1"`
parses as the integer `-1`, yet the builder emits 0 tokens, not `-1`. -/
theorem claim10_counterexample :
    (pySplit ':' ("x,y:3" ++ ":2")).get? 1 = some "3" ∧
    pyParseInt "3" = some 3 ∧
    buildTokenMap "x,y:3" = .error .indexError ∧
    (pySplit ':' ("A:-1" ++ ":2")).get? 1 = some "-1" ∧
    pyParseInt "-1" = some (-1) ∧
    buildTokenMap "A:-1" = .ok ([("A", "")], []) ∧
    (([] : List String).length : Int) ≠ -1 := by
  refine ⟨by decide, by decide, by decide, by decide, by decide, by decide, by decide⟩

/-- C10 amended: for every `token_string` containing `':'` but not `','`,
the per-entry token count is the text between the first and second colon of
`token_string + ":2"` (the second chunk of its colon split): if that text
parses as an integer `k`, the builder emits `max k 0` placeholder tokens
`<s0>, <s1>, ...` keyed by the text before the first colon; if it does not
parse as an integer, `predict` raises the conversion error before any
collaborator is invoked (empty trace, filesystem untouched). -/
theorem claim10_colon_path (S p0 p1 : String) (ps : List String)
    (_hcolon : ':' ∈ S.data) (hm : ',' ∉ S.data)
    (hsp : pySplit ':' (S ++ ":2") = p0 :: p1 :: ps) :
    (∀ k : Int, pyParseInt p1 = some k →
      buildTokenMap S =
        .ok ([(p0, String.join ((List.range k.toNat).map (fun i : Nat => sTok (i : Int))))],
             (List.range k.toNat).map (fun i : Nat => sTok (i : Int)))) ∧
    (pyParseInt p1 = none →
      ∀ (c : Collab) (inp : PredictInputs) (fs0 : FileSys),
        validChoices inp = true → inp.token_string = S →
        predict c inp fs0 = ⟨.error (.valueError p1), [], fs0⟩) := by
  constructor
  · intro k hk
    rw [buildTokenMap_no_comma hm hsp, hk]
  · intro hnone c inp fs0 hv htok
    have hb : buildTokenMap inp.token_string = .error (.valueError p1) := by
      rw [htok, buildTokenMap_no_comma hm hsp, hnone]
    exact predict_build_error hv hb

/-- Witness for the amended C10 at `token_string = "A:3"`. -/
theorem claim10_colon_path_witness :
    (':' ∈ ("A:3" : String).data) ∧ (',' ∉ ("A:3" : String).data) ∧
    pySplit ':' ("A:3" ++ ":2") = "A" :: "3" :: ["2"] ∧
    pyParseInt "3" = some 3 ∧
    buildTokenMap "A:3" =
      .ok ([("A", String.join ((List.range (3 : Int).toNat).map (fun i : Nat => sTok (i : Int))))],
           (List.range (3 : Int).toNat).map (fun i : Nat => sTok (i : Int))) := by
  refine ⟨by decide, by decide, by decide, by decide, ?_⟩
  exact (claim10_colon_path "A:3" "A" "3" ["2"] (by decide) (by decide) (by decide)).1
    3 (by decide)

/-! ## Claim C4: no fail-fast validation of `token_string` -/

/-- C4 counterexample: with an empty `token_string`, `predict` does not fail
fast with a precondition-violation error; it runs to completion, invoking
the Dataset Preprocessor (and the rest of the pipeline) with the empty
string as the token-map key. -/
theorem claim4_counterexample :
    (predict collabT inpEmptyTok fsCacheOnly).result = .ok "training_out/lora.safetensors" ∧
    (predict collabT inpEmptyTok fsCacheOnly).trace.map Event.kind
      = [EventKind.preprocessK, EventKind.makedirsK, EventKind.trainK] := by
  exact ⟨by decide, by decide⟩

/-- C4 amended: `predict` performs no validation of `token_string`.  With an
empty `token_string` the token map is built successfully with key `""` and
value `"<s0><s1>"` and execution proceeds into the Dataset Preprocessor
(the first traced step is the preprocess call).  When the token-map parsing
itself fails (which for strings containing `':'` or `','` means a
non-integer count field or an entry without a colon), the resulting
conversion/index error is raised before any I/O: empty trace and untouched
filesystem. -/
theorem claim4_no_validation :
    (∀ (c : Collab) (inp : PredictInputs) (fs0 : FileSys),
      validChoices inp = true → inp.token_string = "" →
      buildTokenMap inp.token_string = .ok ([("", "<s0><s1>")], ["<s0>", "<s1>"]) ∧
      ((predict c inp fs0).trace.map Event.kind).head? = some EventKind.preprocessK) ∧
    (∀ (c : Collab) (inp : PredictInputs) (fs0 : FileSys) (e : PredictError),
      validChoices inp = true → buildTokenMap inp.token_string = .error e →
      predict c inp fs0 = ⟨.error e, [], fs0⟩) := by
  constructor
  · intro c inp fs0 hv htok
    have hb : buildTokenMap inp.token_string
        = .ok ([("", "<s0><s1>")], ["<s0>", "<s1>"]) := by
      rw [htok]
      decide
    refine ⟨hb, ?_⟩
    rw [predict_build_ok hv hb]
    unfold afterTokenMap
    cases hres : resetOutputDir (s2Of c inp fs0 [("", "<s0><s1>")]).1 with
    | error e => simp [Event.kind]
    | ok st => simp [Event.kind]
  · intro c inp fs0 e hv hb
    exact predict_build_error hv hb

/-- Witness for the amended C4: the empty-token run and the failing-parse
run, both at concrete inputs. -/
theorem claim4_no_validation_witness :
    (validChoices inpEmptyTok = true ∧ inpEmptyTok.token_string = "" ∧
      buildTokenMap inpEmptyTok.token_string
        = .ok ([("", "<s0><s1>")], ["<s0>", "<s1>"]) ∧
      ((predict collabT inpEmptyTok fsCacheOnly).trace.map Event.kind).head?
        = some EventKind.preprocessK) ∧
    (validChoices inpColonBad = true ∧
      buildTokenMap inpColonBad.token_string = .error (.valueError "B") ∧
      predict collabT inpColonBad fsCacheOnly
        = ⟨.error (.valueError "B"), [], fsCacheOnly⟩) := by
  constructor
  · have h := claim4_no_validation.1 collabT inpEmptyTok fsCacheOnly (by decide) rfl
    exact ⟨by decide, rfl, h.1, h.2⟩
  · have h := claim4_no_validation.2 collabT inpColonBad fsCacheOnly
      (.valueError "B") (by decide) (by decide)
    exact ⟨by decide, by decide, h⟩

/-! ## Claim C9: rejection of out-of-range choice parameters -/

/-- C9: for every invocation of `predict` with an `lr_scheduler` outside
`{constant, linear}` or an `input_images_filetype` outside
`{zip, tar, infer}`, the invocation is rejected before any I/O occurs: no
preprocessing, no download, no directory mutation, no training call (empty
trace), and the filesystem is untouched. -/
theorem claim9_choice_rejection (c : Collab) (inp : PredictInputs) (fs0 : FileSys)
    (hbad : inp.lr_scheduler ∉ (["constant", "linear"] : List String) ∨
            inp.input_images_filetype ∉ (["zip", "tar", "infer"] : List String)) :
    (predict c inp fs0).result = .error .choiceValidation ∧
    (predict c inp fs0).trace = [] ∧ (predict c inp fs0).fs = fs0 := by
  have hv : validChoices inp = false := by
    unfold validChoices
    rcases hbad with h | h
    · simp only [List.mem_cons, List.not_mem_nil, or_false, not_or] at h
      have h1 : (inp.lr_scheduler == "constant") = false := by
        simp [h.1]
      have h2 : (inp.lr_scheduler == "linear") = false := by
        simp [h.2]
      simp [h1, h2]
    · simp only [List.mem_cons, List.not_mem_nil, or_false, not_or] at h
      have h1 : (inp.input_images_filetype == "zip") = false := by
        simp [h.1]
      have h2 : (inp.input_images_filetype == "tar") = false := by
        simp [h.2.1]
      have h3 : (inp.input_images_filetype == "infer") = false := by
        simp [h.2.2]
      simp [h1, h2, h3]
  rw [predict_invalid hv]
  exact ⟨rfl, rfl, rfl⟩

/-- Witness for C9 at a concrete unsupported scheduler name. -/
theorem claim9_choice_rejection_witness :
    (({ input_images := "images.zip", lr_scheduler := "cosine" } : PredictInputs).lr_scheduler
        ∉ (["constant", "linear"] : List String) ∨
      ({ input_images := "images.zip", lr_scheduler := "cosine" } : PredictInputs).input_images_filetype
        ∉ (["zip", "tar", "infer"] : List String)) ∧
    (predict collabT { input_images := "images.zip", lr_scheduler := "cosine" } fsCacheOnly).result
      = .error .choiceValidation ∧
    (predict collabT { input_images := "images.zip", lr_scheduler := "cosine" } fsCacheOnly).trace = [] ∧
    (predict collabT { input_images := "images.zip", lr_scheduler := "cosine" } fsCacheOnly).fs
      = fsCacheOnly := by
  have h := claim9_choice_rejection collabT
    { input_images := "images.zip", lr_scheduler := "cosine" } fsCacheOnly
    (Or.inl (by decide))
  exact ⟨Or.inl (by decide), h.1, h.2.1, h.2.2⟩

/-! ## Structure of successful invocations -/

lemma s2Of_hit {c : Collab} {inp : PredictInputs} {fs0 : FileSys}
    {d : List (String × String)}
    (h : (fs1Of c inp fs0 d).pathExists SDXL_MODEL_CACHE = true) :
    s2Of c inp fs0 d = (fs1Of c inp fs0 d, []) := by
  unfold s2Of
  exact cacheStep_hit h

lemma s2Of_miss {c : Collab} {inp : PredictInputs} {fs0 : FileSys}
    {d : List (String × String)}
    (h : (fs1Of c inp fs0 d).pathExists SDXL_MODEL_CACHE = false) :
    s2Of c inp fs0 d = (applyDownload c SDXL_URL SDXL_MODEL_CACHE (fs1Of c inp fs0 d),
      [Event.downloadCall SDXL_URL SDXL_MODEL_CACHE]) := by
  unfold s2Of
  exact cacheStep_miss h

lemma predict_ok_struct {c : Collab} {inp : PredictInputs} {fs0 : FileSys} {rp : String}
    (hr : (predict c inp fs0).result = .ok rp) :
    ∃ d all fs3 tr3,
      validChoices inp = true ∧
      buildTokenMap inp.token_string = .ok (d, all) ∧
      resetOutputDir (s2Of c inp fs0 d).1 = .ok (fs3, tr3) ∧
      rp = OUTPUT_DIR ++ "/lora.safetensors" ∧
      predict c inp fs0 = ⟨.ok (OUTPUT_DIR ++ "/lora.safetensors"),
        [Event.preprocessCall (pargsOf inp d)] ++ (s2Of c inp fs0 d).2 ++ tr3
          ++ [Event.trainCall (targsOf c inp d all)],
        applyTrain c (targsOf c inp d all) fs3⟩ := by
  cases hv : validChoices inp with
  | false =>
    rw [predict_invalid hv] at hr
    exact Except.noConfusion hr
  | true =>
    cases hb : buildTokenMap inp.token_string with
    | error e =>
      rw [predict_build_error hv hb] at hr
      exact Except.noConfusion hr
    | ok pa =>
      obtain ⟨d, all⟩ := pa
      rw [predict_build_ok hv hb] at hr
      unfold afterTokenMap at hr
      cases hres : resetOutputDir (s2Of c inp fs0 d).1 with
      | error e =>
        rw [hres] at hr
        exact Except.noConfusion hr
      | ok st =>
        obtain ⟨fs3, tr3⟩ := st
        rw [hres] at hr
        refine ⟨d, all, fs3, tr3, rfl, rfl, hres, ?_, ?_⟩
        · exact (Except.ok.inj hr).symm
        · rw [predict_build_ok hv hb]
          unfold afterTokenMap
          rw [hres]

/-! ## Claim C6: strict linear control flow -/

/-- C6: every invocation of `predict` that returns performs its steps in the
strict linear order: build the token map (pure, before any traced step,
shown by the error claims' empty traces); invoke the Dataset Preprocessor;
resolve the weights cache (at most one download); reset the output
directory; invoke the Training Routine; return the artifact path.  The
traced step-kind sequence is one of the four linear instances of that
order, with no retries or repetition. -/
theorem claim6_linear_pipeline (c : Collab) (inp : PredictInputs) (fs0 : FileSys)
    (rp : String) (hr : (predict c inp fs0).result = .ok rp) :
    ((predict c inp fs0).trace.map Event.kind) ∈
      ([[.preprocessK, .downloadK, .rmtreeK, .makedirsK, .trainK],
        [.preprocessK, .downloadK, .makedirsK, .trainK],
        [.preprocessK, .rmtreeK, .makedirsK, .trainK],
        [.preprocessK, .makedirsK, .trainK]] : List (List EventKind)) := by
  obtain ⟨d, all, fs3, tr3, hv, hb, hres, hrp, heq⟩ := predict_ok_struct hr
  rw [heq]
  rcases resetOutputDir_shape hres with ⟨hex, hfs3, htr3⟩ | ⟨hex, hfs3, htr3⟩ <;>
    subst htr3 <;>
    cases hcache : (fs1Of c inp fs0 d).pathExists SDXL_MODEL_CACHE
  · rw [s2Of_miss hcache]
    simp [Event.kind]
  · rw [s2Of_hit hcache]
    simp [Event.kind]
  · rw [s2Of_miss hcache]
    simp [Event.kind]
  · rw [s2Of_hit hcache]
    simp [Event.kind]

/-- Witness for C6: a concrete successful run (cache present, fresh output
directory) exhibits the `[preprocess, makedirs, train]` instance. -/
theorem claim6_linear_pipeline_witness :
    (predict collabT inpDefault fsCacheOnly).result = .ok "training_out/lora.safetensors" ∧
    ((predict collabT inpDefault fsCacheOnly).trace.map Event.kind) ∈
      ([[.preprocessK, .downloadK, .rmtreeK, .makedirsK, .trainK],
        [.preprocessK, .downloadK, .makedirsK, .trainK],
        [.preprocessK, .rmtreeK, .makedirsK, .trainK],
        [.preprocessK, .makedirsK, .trainK]] : List (List EventKind)) :=
  ⟨by decide, claim6_linear_pipeline collabT inpDefault fsCacheOnly
      "training_out/lora.safetensors" (by decide)⟩

lemma trainCall_mem_struct {c : Collab} {inp : PredictInputs} {fs0 : FileSys}
    {t : TrainArgs} (ht : Event.trainCall t ∈ (predict c inp fs0).trace) :
    ∃ d all fs3 tr3,
      validChoices inp = true ∧
      buildTokenMap inp.token_string = .ok (d, all) ∧
      resetOutputDir (s2Of c inp fs0 d).1 = .ok (fs3, tr3) ∧
      t = targsOf c inp d all ∧
      predict c inp fs0 = ⟨.ok (OUTPUT_DIR ++ "/lora.safetensors"),
        [Event.preprocessCall (pargsOf inp d)] ++ (s2Of c inp fs0 d).2 ++ tr3
          ++ [Event.trainCall (targsOf c inp d all)],
        applyTrain c (targsOf c inp d all) fs3⟩ := by
  cases hv : validChoices inp with
  | false =>
    rw [predict_invalid hv] at ht
    simp at ht
  | true =>
    cases hb : buildTokenMap inp.token_string with
    | error e =>
      rw [predict_build_error hv hb] at ht
      simp at ht
    | ok pa =>
      obtain ⟨d, all⟩ := pa
      rw [predict_build_ok hv hb] at ht
      unfold afterTokenMap at ht
      cases hres : resetOutputDir (s2Of c inp fs0 d).1 with
      | error e =>
        simp only [hres] at ht
        cases hcache : (fs1Of c inp fs0 d).pathExists SDXL_MODEL_CACHE
        · rw [s2Of_miss hcache] at ht
          simp at ht
        · rw [s2Of_hit hcache] at ht
          simp at ht
      | ok st =>
        obtain ⟨fs3, tr3⟩ := st
        simp only [hres] at ht
        have hteq : t = targsOf c inp d all := by
          rcases resetOutputDir_shape hres with ⟨_, _, htr3⟩ | ⟨_, _, htr3⟩ <;>
            subst htr3 <;>
            cases hcache : (fs1Of c inp fs0 d).pathExists SDXL_MODEL_CACHE
          · rw [s2Of_miss hcache] at ht
            simp at ht
            exact ht
          · rw [s2Of_hit hcache] at ht
            simp at ht
            exact ht
          · rw [s2Of_miss hcache] at ht
            simp at ht
            exact ht
          · rw [s2Of_hit hcache] at ht
            simp at ht
            exact ht
        refine ⟨d, all, fs3, tr3, rfl, rfl, hres, hteq, ?_⟩
        rw [predict_build_ok hv hb]
        unfold afterTokenMap
        rw [hres]

/-! ## Claim C7: hyperparameters pass through unmodified -/

/-- C7: whenever the Training Routine is invoked, each caller-supplied
hyperparameter (seed, resolution, train_batch_size, num_train_epochs,
max_train_steps, unet_learning_rate, ti_lr, lora_lr, lr_scheduler,
lr_warmup_steps, verbose, checkpointing_steps, lora_rank) is passed to it
unmodified, together with the fixed engineering defaults
`gradient_accumulation_steps = 1`, `scale_lr = False`,
`max_grad_norm = 1.0`, `allow_tf32 = True`, `mixed_precision = "bf16"`,
`device = "cuda:0"`, `is_lora = True`. -/
theorem claim7_hyperparameter_passthrough (c : Collab) (inp : PredictInputs)
    (fs0 : FileSys) (t : TrainArgs)
    (ht : Event.trainCall t ∈ (predict c inp fs0).trace) :
    t.seed = inp.seed ∧ t.resolution = inp.resolution ∧
    t.train_batch_size = inp.train_batch_size ∧
    t.num_train_epochs = inp.num_train_epochs ∧
    t.max_train_steps = inp.max_train_steps ∧
    t.unet_learning_rate = inp.unet_learning_rate ∧
    t.ti_lr = inp.ti_lr ∧ t.lora_lr = inp.lora_lr ∧
    t.lr_scheduler = inp.lr_scheduler ∧
    t.lr_warmup_steps = inp.lr_warmup_steps ∧
    t.verbose = inp.verbose ∧
    t.checkpointing_steps = inp.checkpointing_steps ∧
    t.lora_rank = inp.lora_rank ∧
    t.gradient_accumulation_steps = 1 ∧ t.scale_lr = false ∧
    t.max_grad_norm = 1 ∧ t.allow_tf32 = true ∧
    t.mixed_precision = "bf16" ∧ t.device = "cuda:0" ∧ t.is_lora = true := by
  obtain ⟨d, all, fs3, tr3, _, _, _, hteq, _⟩ := trainCall_mem_struct ht
  subst hteq
  exact ⟨rfl, rfl, rfl, rfl, rfl, rfl, rfl, rfl, rfl, rfl, rfl, rfl, rfl, rfl,
    rfl, rfl, rfl, rfl, rfl, rfl⟩

/-- Witness for C7 at the concrete default run. -/
theorem claim7_hyperparameter_passthrough_witness :
    Event.trainCall targsT ∈ (predict collabT inpDefault fsCacheOnly).trace ∧
    (targsT.seed = inpDefault.seed ∧ targsT.resolution = inpDefault.resolution ∧
    targsT.train_batch_size = inpDefault.train_batch_size ∧
    targsT.num_train_epochs = inpDefault.num_train_epochs ∧
    targsT.max_train_steps = inpDefault.max_train_steps ∧
    targsT.unet_learning_rate = inpDefault.unet_learning_rate ∧
    targsT.ti_lr = inpDefault.ti_lr ∧ targsT.lora_lr = inpDefault.lora_lr ∧
    targsT.lr_scheduler = inpDefault.lr_scheduler ∧
    targsT.lr_warmup_steps = inpDefault.lr_warmup_steps ∧
    targsT.verbose = inpDefault.verbose ∧
    targsT.checkpointing_steps = inpDefault.checkpointing_steps ∧
    targsT.lora_rank = inpDefault.lora_rank ∧
    targsT.gradient_accumulation_steps = 1 ∧ targsT.scale_lr = false ∧
    targsT.max_grad_norm = 1 ∧ targsT.allow_tf32 = true ∧
    targsT.mixed_precision = "bf16" ∧ targsT.device = "cuda:0" ∧
    targsT.is_lora = true) :=
  ⟨by decide,
   claim7_hyperparameter_passthrough collabT inpDefault fsCacheOnly targsT (by decide)⟩

/-! ## Filesystem lemmas -/

lemma pathExists_makedirs_mono {fs : FileSys} {p : String} (d : String)
    (h : fs.pathExists p = true) : (fs.makedirs d).pathExists p = true := by
  simp only [FileSys.pathExists, FileSys.makedirs, List.any_cons, Bool.or_eq_true,
    List.any_eq_true] at h ⊢
  rcases h with h | h
  · exact Or.inl (Or.inr h)
  · exact Or.inr h

lemma pathExists_addFiles_mono {fs : FileSys} {p : String} (l : List (String × Nat))
    (h : fs.pathExists p = true) : (fs.addFiles l).pathExists p = true := by
  simp only [FileSys.pathExists, FileSys.addFiles, List.any_append, Bool.or_eq_true,
    List.any_eq_true] at h ⊢
  rcases h with h | h
  · exact Or.inl h
  · exact Or.inr (Or.inr h)

lemma pathExists_applyDownload_self (c : Collab) (url dest : String) (fs : FileSys) :
    (applyDownload c url dest fs).pathExists dest = true := by
  simp [applyDownload, FileSys.pathExists, FileSys.makedirs, FileSys.addFiles]

lemma pathExists_applyTrain_mono {c : Collab} {t : TrainArgs} {fs : FileSys}
    {p : String} (h : fs.pathExists p = true) :
    (applyTrain c t fs).pathExists p = true :=
  pathExists_addFiles_mono _ h

lemma pathExists_rmtree_sdxl {fs : FileSys}
    (h : fs.pathExists SDXL_MODEL_CACHE = true) :
    (fs.rmtree OUTPUT_DIR).pathExists SDXL_MODEL_CACHE = true := by
  simp only [FileSys.pathExists, FileSys.rmtree, Bool.or_eq_true, List.any_eq_true,
    List.mem_filter] at h ⊢
  have hkeep : (!("./sdxl-cache" == OUTPUT_DIR || isUnder OUTPUT_DIR "./sdxl-cache")) = true := by
    decide
  rcases h with ⟨x, hx, hb⟩ | ⟨e, he, hb⟩
  · left
    have hx2 : x = "./sdxl-cache" := by
      have := of_decide_eq_true hb
      exact this
    exact ⟨x, ⟨hx, by rw [hx2]; exact hkeep⟩, hb⟩
  · right
    have he2 : e.1 = "./sdxl-cache" := by
      have := of_decide_eq_true hb
      exact this
    exact ⟨e, ⟨he, by rw [he2]; exact hkeep⟩, hb⟩

/-- After a successful output-directory reset, `SDXL_MODEL_CACHE` existence
is unchanged when it held before. -/
lemma pathExists_reset_sdxl {fs fs' : FileSys} {tr : List Event}
    (hres : resetOutputDir fs = .ok (fs', tr))
    (h : fs.pathExists SDXL_MODEL_CACHE = true) :
    fs'.pathExists SDXL_MODEL_CACHE = true := by
  rcases resetOutputDir_shape hres with ⟨_, hfs, _⟩ | ⟨_, hfs, _⟩ <;> subst hfs
  · exact pathExists_makedirs_mono _ (pathExists_rmtree_sdxl h)
  · exact pathExists_makedirs_mono _ h

/-! ## Claim C3: the weights-cache resolver -/

/-- C3: for every invocation of `predict` that reaches the weights-cache
step (valid choices, token map built): if `./sdxl-cache` already exists, no
download call appears in the trace (idempotent skip); if it does not exist,
the trace contains exactly one download call, carrying the fixed SDXL URL
and that destination path, and the directory exists in the final
filesystem state.  The preprocessing collaborator is assumed not to create
or remove the weights cache directory. -/
theorem claim3_weights_cache (c : Collab) (inp : PredictInputs) (fs0 : FileSys)
    (d : List (String × String)) (all : List String)
    (hv : validChoices inp = true)
    (hb : buildTokenMap inp.token_string = .ok (d, all))
    (hpre : ∀ (a : PreprocessArgs) (f : FileSys),
      (c.preprocessFS a f).pathExists SDXL_MODEL_CACHE = f.pathExists SDXL_MODEL_CACHE) :
    (fs0.pathExists SDXL_MODEL_CACHE = true →
      (predict c inp fs0).trace.filter (fun e => e.kind == EventKind.downloadK) = []) ∧
    (fs0.pathExists SDXL_MODEL_CACHE = false →
      (predict c inp fs0).trace.filter (fun e => e.kind == EventKind.downloadK)
        = [Event.downloadCall SDXL_URL SDXL_MODEL_CACHE] ∧
      (predict c inp fs0).fs.pathExists SDXL_MODEL_CACHE = true) := by
  rw [predict_build_ok hv hb]
  have hfs1 : (fs1Of c inp fs0 d).pathExists SDXL_MODEL_CACHE
      = fs0.pathExists SDXL_MODEL_CACHE := hpre (pargsOf inp d) fs0
  constructor
  · intro hex
    have hc1 : (fs1Of c inp fs0 d).pathExists SDXL_MODEL_CACHE = true := by
      rw [hfs1]; exact hex
    unfold afterTokenMap
    rw [s2Of_hit hc1]
    cases hres : resetOutputDir (fs1Of c inp fs0 d) with
    | error e => simp [Event.kind]
    | ok st =>
      have hsh := resetOutputDir_shape hres
      rcases hsh with ⟨_, _, htr⟩ | ⟨_, _, htr⟩ <;>
        simp [htr, Event.kind]
  · intro hex
    have hc1 : (fs1Of c inp fs0 d).pathExists SDXL_MODEL_CACHE = false := by
      rw [hfs1]; exact hex
    unfold afterTokenMap
    rw [s2Of_miss hc1]
    have hdl : (applyDownload c SDXL_URL SDXL_MODEL_CACHE
        (fs1Of c inp fs0 d)).pathExists SDXL_MODEL_CACHE = true :=
      pathExists_applyDownload_self c SDXL_URL SDXL_MODEL_CACHE (fs1Of c inp fs0 d)
    cases hres : resetOutputDir (applyDownload c SDXL_URL SDXL_MODEL_CACHE
        (fs1Of c inp fs0 d)) with
    | error e =>
      constructor
      · simp [Event.kind]
      · exact hdl
    | ok st =>
      obtain ⟨fs3, tr3⟩ := st
      have hsh := resetOutputDir_shape hres
      constructor
      · rcases hsh with ⟨_, _, htr⟩ | ⟨_, _, htr⟩ <;>
          simp [htr, Event.kind]
      · exact pathExists_applyTrain_mono (pathExists_reset_sdxl hres hdl)

/-- Witness for C3: a concrete run starting from an empty filesystem
exercises the download branch of the resolver. -/
theorem claim3_weights_cache_witness :
    ((FileSys.mk [] []).pathExists SDXL_MODEL_CACHE = true →
      (predict collabT inpDefault (FileSys.mk [] [])).trace.filter
        (fun e => e.kind == EventKind.downloadK) = []) ∧
    ((FileSys.mk [] []).pathExists SDXL_MODEL_CACHE = false →
      (predict collabT inpDefault (FileSys.mk [] [])).trace.filter
        (fun e => e.kind == EventKind.downloadK)
        = [Event.downloadCall SDXL_URL SDXL_MODEL_CACHE] ∧
      (predict collabT inpDefault (FileSys.mk [] [])).fs.pathExists SDXL_MODEL_CACHE = true) :=
  claim3_weights_cache collabT inpDefault (FileSys.mk [] [])
    [("TOK", "<s0><s1>")] ["<s0>", "<s1>"] (by decide) (by decide)
    (fun _ _ => rfl)

/-! ## Claim C2: the output-directory reset -/

lemma isUnder_out_self (name : String) :
    isUnder OUTPUT_DIR (OUTPUT_DIR ++ "/" ++ name) = true := by
  unfold isUnder
  have hd : (OUTPUT_DIR ++ "/" ++ name).data = (OUTPUT_DIR.data ++ ['/']) ++ name.data := by
    rw [String.data_append, String.data_append]
  rw [hd]
  exact List.isPrefixOf_iff_prefix.mpr (List.prefix_append _ _)

lemma isUnder_out_sdxl (name : String) :
    isUnder OUTPUT_DIR (SDXL_MODEL_CACHE ++ "/" ++ name) = false := by
  unfold isUnder
  rw [String.data_append]
  have h2 : (SDXL_MODEL_CACHE ++ "/").data = '.' :: "/sdxl-cache/".data := by decide
  have h3 : OUTPUT_DIR.data ++ ['/'] = 't' :: "raining_out/".data := by decide
  rw [h2, h3, List.cons_append]
  simp [List.isPrefixOf]

lemma outFileConsistent_applyDownload {c : Collab} {fs : FileSys}
    (h : outFileConsistent fs) :
    outFileConsistent (applyDownload c SDXL_URL SDXL_MODEL_CACHE fs) := by
  intro e he hu
  simp only [applyDownload, FileSys.addFiles, FileSys.makedirs, List.mem_append] at he
  rcases he with he | he
  · obtain ⟨w, hw, hwe⟩ := List.mem_map.mp he
    rw [← hwe] at hu
    rw [isUnder_out_sdxl w.1] at hu
    exact absurd hu (by decide)
  · exact pathExists_addFiles_mono _ (pathExists_makedirs_mono _ (h e he hu))

lemma reset_ok_files {fs fs' : FileSys} {tr : List Event}
    (hcons : outFileConsistent fs)
    (hres : resetOutputDir fs = .ok (fs', tr)) :
    ∀ e ∈ fs'.files, isUnder OUTPUT_DIR e.1 = false := by
  rcases resetOutputDir_shape hres with ⟨_, hfs, _⟩ | ⟨hex, hfs, _⟩ <;> subst hfs <;> intro e he
  · simp only [FileSys.makedirs, FileSys.rmtree, List.mem_filter] at he
    have hb := he.2
    rw [Bool.not_eq_true'] at hb
    exact (Bool.or_eq_false_iff.mp hb).2
  · simp only [FileSys.makedirs] at he
    cases hu : isUnder OUTPUT_DIR e.1
    · rfl
    · have hc := hcons e he hu
      rw [hex] at hc
      exact absurd hc (by decide)

/-- C2 counterexample: the claim fails as stated.  On an initial filesystem
without a `training_out` entry, the first traced step of a successful run
is the preprocessor call — the reset is neither unconditional (no `rmtree`
occurs at all) nor at the start of the invocation (the `makedirs` comes
after preprocessing and the cache check). -/
theorem claim2_counterexample :
    (predict collabT inpDefault fsCacheOnly).trace.map Event.kind
      = [EventKind.preprocessK, EventKind.makedirsK, EventKind.trainK] ∧
    ((predict collabT inpDefault fsCacheOnly).trace.map Event.kind).head?
      ≠ some EventKind.rmtreeK ∧
    ((predict collabT inpDefault fsCacheOnly).trace.map Event.kind).head?
      ≠ some EventKind.makedirsK ∧
    EventKind.rmtreeK ∉ (predict collabT inpDefault fsCacheOnly).trace.map Event.kind := by
  exact ⟨by decide, by decide, by decide, by decide⟩

/-- C2 amended: on every invocation of `predict` that reaches the training
step, the output directory is deleted (when present) and recreated
immediately before the Training Routine call — after preprocessing and the
weights-cache step — so no file present at that path before the invocation
survives into the training step: the training call is the last traced
step, and the files under `training_out` in the final state are exactly
the ones written by that run's Training Routine.  In particular, calling
`predict` twice in sequence fully replaces the output-directory contents
(this statement quantifies over the initial filesystem, so it applies to
the second run's start state verbatim).  The preprocessing collaborator is
assumed to preserve filesystem well-formedness at `training_out`. -/
theorem claim2_output_replaced (c : Collab) (inp : PredictInputs) (fs0 : FileSys)
    (t : TrainArgs)
    (hcons : outFileConsistent fs0)
    (hpre : ∀ (a : PreprocessArgs) (f : FileSys),
      outFileConsistent f → outFileConsistent (c.preprocessFS a f))
    (ht : Event.trainCall t ∈ (predict c inp fs0).trace) :
    (predict c inp fs0).trace.getLast? = some (Event.trainCall t) ∧
    (predict c inp fs0).fs.files.filter (fun e => isUnder OUTPUT_DIR e.1)
      = (c.trainWrites t).map (fun e => (OUTPUT_DIR ++ "/" ++ e.1, e.2)) := by
  obtain ⟨d, all, fs3, tr3, hv, hb, hres, hteq, heq⟩ := trainCall_mem_struct ht
  subst hteq
  rw [heq]
  constructor
  · exact List.getLast?_concat _
  · have hfs2 : outFileConsistent (s2Of c inp fs0 d).1 := by
      have h1 : outFileConsistent (fs1Of c inp fs0 d) := hpre (pargsOf inp d) fs0 hcons
      cases hcache : (fs1Of c inp fs0 d).pathExists SDXL_MODEL_CACHE
      · rw [s2Of_miss hcache]
        exact outFileConsistent_applyDownload h1
      · rw [s2Of_hit hcache]
        exact h1
    have hfs3 := reset_ok_files hfs2 hres
    show (applyTrain c (targsOf c inp d all) fs3).files.filter
        (fun e => isUnder OUTPUT_DIR e.1) = _
    unfold applyTrain FileSys.addFiles
    have hout : (targsOf c inp d all).output_dir = OUTPUT_DIR := rfl
    rw [hout, List.filter_append]
    have h2 : fs3.files.filter (fun e => isUnder OUTPUT_DIR e.1) = [] := by
      apply List.filter_eq_nil_iff.mpr
      intro a ha
      rw [hfs3 a ha]
      decide
    rw [h2, List.append_nil]
    apply List.filter_eq_self.mpr
    intro a ha
    obtain ⟨w, hw, hwe⟩ := List.mem_map.mp ha
    rw [← hwe]
    exact isUnder_out_self w.1

/-- Witness for the amended C2: the stale file does not survive; the files
under `training_out` afterwards are exactly the training run's writes. -/
theorem claim2_output_replaced_witness :
    outFileConsistent fsStale ∧
    Event.trainCall targsT ∈ (predict collabT inpDefault fsStale).trace ∧
    (predict collabT inpDefault fsStale).trace.getLast? = some (Event.trainCall targsT) ∧
    (predict collabT inpDefault fsStale).fs.files.filter
        (fun e => isUnder OUTPUT_DIR e.1)
      = (collabT.trainWrites targsT).map (fun e => (OUTPUT_DIR ++ "/" ++ e.1, e.2)) := by
  have h := claim2_output_replaced collabT inpDefault fsStale targsT
      (by decide) (fun _ _ hcf => hcf) (by decide)
  exact ⟨by decide, by decide, h.1, h.2⟩

/-! ## Claim C5: the returned artifact path -/

lemma string_append_left_cancel {a b b' : String} (h : a ++ b = a ++ b') : b = b' := by
  apply String.ext
  have hd := congrArg String.data h
  rw [String.data_append, String.data_append] at hd
  exact List.append_cancel_left hd

lemma find?_prefixed (tw : List (String × Nat)) (name : String) :
    ((tw.map (fun e => (OUTPUT_DIR ++ "/" ++ e.1, e.2))).find?
        (fun e => e.1 == OUTPUT_DIR ++ "/" ++ name))
      = (tw.find? (fun e => e.1 == name)).map
          (fun e => (OUTPUT_DIR ++ "/" ++ e.1, e.2)) := by
  induction tw with
  | nil => rfl
  | cons w tw ih =>
    simp only [List.map_cons, List.find?_cons]
    by_cases hw : w.1 = name
    · have hp : ((OUTPUT_DIR ++ "/" ++ w.1) == OUTPUT_DIR ++ "/" ++ name) = true := by
        rw [hw]
        simp
      have hp2 : (w.1 == name) = true := by
        rw [hw]
        simp
      simp [hp, hp2]
    · have hp : ((OUTPUT_DIR ++ "/" ++ w.1) == OUTPUT_DIR ++ "/" ++ name) = false := by
        apply beq_eq_false_iff_ne.mpr
        intro hcontra
        exact hw (string_append_left_cancel hcontra)
      have hp2 : (w.1 == name) = false := beq_eq_false_iff_ne.mpr hw
      simp [hp, hp2, ih]

/-- C5: if `predict` returns (rather than raising), the returned value is
the fixed path `training_out/lora.safetensors` inside the output
directory, and — under the spec's stated trust that the Training Routine
writes a non-empty `lora.safetensors` into its output directory — the file
at that path exists and is non-empty in the final state. -/
theorem claim5_artifact_path (c : Collab) (inp : PredictInputs) (fs0 : FileSys)
    (rp : String)
    (hr : (predict c inp fs0).result = .ok rp)
    (htrust : ∀ t : TrainArgs,
      0 < ((((c.trainWrites t).find? (fun e => e.1 == "lora.safetensors")).map
        Prod.snd).getD 0)) :
    rp = "training_out/lora.safetensors" ∧
    0 < ((sizeAt (predict c inp fs0).fs rp).getD 0) := by
  obtain ⟨d, all, fs3, tr3, hv, hb, hres, hrp, heq⟩ := predict_ok_struct hr
  have hrp2 : rp = "training_out/lora.safetensors" := hrp
  refine ⟨hrp2, ?_⟩
  rw [heq, hrp2]
  show 0 < ((sizeAt (applyTrain c (targsOf c inp d all) fs3)
      "training_out/lora.safetensors").getD 0)
  have hq := htrust (targsOf c inp d all)
  cases hfq : (c.trainWrites (targsOf c inp d all)).find?
      (fun e => e.1 == "lora.safetensors") with
  | none =>
    rw [hfq] at hq
    simp at hq
  | some w =>
    rw [hfq] at hq
    simp only [Option.map_some', Option.getD_some] at hq
    unfold sizeAt applyTrain FileSys.addFiles
    have hout : (targsOf c inp d all).output_dir = OUTPUT_DIR := rfl
    rw [hout, List.find?_append]
    have hlit : ("training_out/lora.safetensors" : String)
        = OUTPUT_DIR ++ "/" ++ "lora.safetensors" := by decide
    rw [hlit, find?_prefixed, hfq]
    simpa using hq

/-- Witness for C5 at the concrete default run. -/
theorem claim5_artifact_path_witness :
    (predict collabT inpDefault fsCacheOnly).result = .ok "training_out/lora.safetensors" ∧
    0 < ((sizeAt (predict collabT inpDefault fsCacheOnly).fs
      "training_out/lora.safetensors").getD 0) := by
  have htr : ∀ t : TrainArgs,
      0 < ((((collabT.trainWrites t).find? (fun e => e.1 == "lora.safetensors")).map
        Prod.snd).getD 0) := by
    intro t
    show 0 < (((([("lora.safetensors", 9)] : List (String × Nat)).find?
      (fun e => e.1 == "lora.safetensors")).map Prod.snd).getD 0)
    decide
  have h := claim5_artifact_path collabT inpDefault fsCacheOnly
      "training_out/lora.safetensors" (by decide) htr
  exact ⟨by decide, h.2⟩
